import Mathlib

/-!
Verification development for the Contextual Decomposition (CD) scoring
library (`acd/scores/cd.py`).

The file shallowly embeds the two propagation pipelines of the repository:

* the sequence propagator `cd_text` for single-layer LSTM classifiers
  (embedded over exact rational arithmetic, with the two activation
  functions `σ` for `scipy.special.expit` and `τ` for `np.tanh` kept as
  explicit function parameters), and
* the generic layer-wise propagator `cd` together with the hard-coded
  tracked variant `cd_track_vgg`, embedded over flat rational tensors
  (`List ℚ`).

The decomposition primitive library (`cd_propagate`: `propagate_three`,
`propagate_tanh_two`, `propagate_conv_linear`, `propagate_relu`,
`propagate_pooling`, `propagate_dropout`, `propagate_linear_like`) is
imported by `cd.py` but its source is not part of the repository snapshot;
those definitions are modelled from the specification and are marked as
such in their doc comments.
-/

namespace CD

/-- A relevant/irrelevant/bias contribution triple for one LSTM gate,
as produced by `propagate_three` (spec section 3, "Gate decomposition
triple"). -/
structure Contrib (d : ℕ) where
  rel : Fin d → ℚ
  irrel : Fin d → ℚ
  bias : Fin d → ℚ

/-- Modelled from the spec: `propagate_three(rel, irrel, bias, nonlinearity)`
from the absent `cd_propagate` module.  It splits
`nonlinearity(rel + irrel + bias)` into relevant-only, irrelevant-only and
bias-only contributions by evaluating the nonlinearity at zeroed-out
combinations and taking the symmetric linear combination of the CD reference
formula; the bias contribution is the nonlinearity of the bias alone. -/
def propagate_three {d : ℕ} (f : ℚ → ℚ) (a b bias : Fin d → ℚ) : Contrib d where
  rel := fun j => (f (a j + bias j) - f (bias j) + (f (a j + b j + bias j) - f (b j + bias j))) / 2
  irrel := fun j => (f (b j + bias j) - f (bias j) + (f (a j + b j + bias j) - f (a j + bias j))) / 2
  bias := fun j => f (bias j)

/-- Modelled from the spec: `propagate_tanh_two(a, b)` from the absent
`cd_propagate` module, splitting `tanh(a + b)` into two contributions
(the symmetric CD reference formula); the tanh-like activation `τ` is a
parameter. -/
def propagate_tanh_two {d : ℕ} (τ : ℚ → ℚ) (a b : Fin d → ℚ) :
    (Fin d → ℚ) × (Fin d → ℚ) :=
  (fun j => (τ (a j) + (τ (a j + b j) - τ (b j))) / 2,
   fun j => (τ (b j) + (τ (a j + b j) - τ (a j))) / 2)

/-- A linear (or convolutional, represented by its linear map) layer with an
optional bias, as consumed by the linear decomposition primitive. -/
structure LinLayer (m n : ℕ) where
  weight : Matrix (Fin m) (Fin n) ℚ
  bias : Option (Fin m → ℚ)

/-- The layer's own forward map: weight application plus bias (zero when the
layer has no bias). -/
def LinLayer.apply {m n : ℕ} (L : LinLayer m n) (x : Fin n → ℚ) : Fin m → ℚ :=
  L.weight.mulVec x + (L.bias.getD 0)

/-- Modelled from the spec: `propagate_linear_like(relevant, irrelevant, layer)`
from the absent `cd_propagate` module.  The layer's linear transform is
applied separately to each side; the entire bias is assigned to the
irrelevant side, except in the degenerate edge case where both inputs are
exactly zero, in which case the bias is split evenly. -/
def propagate_linear_like {m n : ℕ} (r i : Fin n → ℚ) (L : LinLayer m n) :
    (Fin m → ℚ) × (Fin m → ℚ) :=
  match L.bias with
  | none => (L.weight.mulVec r, L.weight.mulVec i)
  | some b =>
    if r = 0 ∧ i = 0 then
      (L.weight.mulVec r + fun j => b j / 2, L.weight.mulVec i + fun j => b j / 2)
    else
      (L.weight.mulVec r, L.weight.mulVec i + b)

/-- The weights of the single-layer LSTM text classifier read by `cd_text`
(`cd.py` lines 80-86 and 145): per-gate input-to-hidden and hidden-to-hidden
weight blocks, the two bias vectors of each gate (`bias_ih_l0` and
`bias_hh_l0`, summed by the code at line 85), and the readout layer
`hidden_to_label` (weight and bias). -/
structure TextModel (d n c : ℕ) where
  Wii : Matrix (Fin d) (Fin n) ℚ
  Wif : Matrix (Fin d) (Fin n) ℚ
  Wig : Matrix (Fin d) (Fin n) ℚ
  Wio : Matrix (Fin d) (Fin n) ℚ
  Whi : Matrix (Fin d) (Fin d) ℚ
  Whf : Matrix (Fin d) (Fin d) ℚ
  Whg : Matrix (Fin d) (Fin d) ℚ
  Who : Matrix (Fin d) (Fin d) ℚ
  bihI : Fin d → ℚ
  bihF : Fin d → ℚ
  bihG : Fin d → ℚ
  bihO : Fin d → ℚ
  bhhI : Fin d → ℚ
  bhhF : Fin d → ℚ
  bhhG : Fin d → ℚ
  bhhO : Fin d → ℚ
  Wout : Matrix (Fin c) (Fin d) ℚ
  bout : Fin c → ℚ

/-- The per-timestep state of `cd_text`: the current rows `relevant[i]`,
`irrelevant[i]` (cell-state split) and `relevant_h[i]`, `irrelevant_h[i]`
(hidden-state split) of the arrays allocated at `cd.py` lines 88-91. -/
structure CDState (d : ℕ) where
  relC : Fin d → ℚ
  irrelC : Fin d → ℚ
  relH : Fin d → ℚ
  irrelH : Fin d → ℚ

/-- `prev_rel_h` at timestep `i` (`cd.py` lines 92-98): the previous
relevant hidden state for `i > 0`, the zero vector at `i = 0`. -/
def cdPrevRel {d : ℕ} (i : ℕ) (s : CDState d) : Fin d → ℚ :=
  if 0 < i then s.relH else 0

/-- `prev_irrel_h` at timestep `i` (`cd.py` lines 92-98). -/
def cdPrevIrrel {d : ℕ} (i : ℕ) (s : CDState d) : Fin d → ℚ :=
  if 0 < i then s.irrelH else 0

/-- The membership test `i >= start and i <= stop` of `cd.py` lines 109 and
126. -/
def inRange (start stop i : ℕ) : Bool :=
  decide (start ≤ i ∧ i ≤ stop)

/-- One gate's relevant/irrelevant pre-activation pair (`cd.py` lines
100-118): the hidden-to-hidden term is applied to each previous split hidden
state, and the current token's input-to-hidden term is added entirely to the
relevant side when `start ≤ i ≤ stop`, entirely to the irrelevant side
otherwise. -/
def gatePre {d n : ℕ} (Wh : Matrix (Fin d) (Fin d) ℚ) (Wi : Matrix (Fin d) (Fin n) ℚ)
    (inR : Bool) (prevRel prevIrrel : Fin d → ℚ) (x : Fin n → ℚ) :
    (Fin d → ℚ) × (Fin d → ℚ) :=
  if inR then (Wh.mulVec prevRel + Wi.mulVec x, Wh.mulVec prevIrrel)
  else (Wh.mulVec prevRel, Wh.mulVec prevIrrel + Wi.mulVec x)

/-- The cell-state update terms of `cd.py` lines 123-124, before the
gate-bias cross term is routed. -/
def cellBase {d : ℕ} (ci cg : Contrib d) : (Fin d → ℚ) × (Fin d → ℚ) :=
  (ci.rel * (cg.rel + cg.bias) + ci.bias * cg.rel,
   ci.irrel * (cg.rel + cg.irrel + cg.bias) + (ci.rel + ci.bias) * cg.irrel)

/-- The cell-state update of `cd.py` lines 123-129: the base terms plus the
gate-bias cross term `bias_contrib_i * bias_contrib_g`, which is added to the
relevant side when `start ≤ i ≤ stop` and to the irrelevant side
otherwise. -/
def cellUpdate {d : ℕ} (inR : Bool) (ci cg : Contrib d) :
    (Fin d → ℚ) × (Fin d → ℚ) :=
  if inR then ((cellBase ci cg).1 + ci.bias * cg.bias, (cellBase ci cg).2)
  else ((cellBase ci cg).1, (cellBase ci cg).2 + ci.bias * cg.bias)

/-- The forget-gate blending of `cd.py` lines 131-135 (only executed for
`i > 0`), applied to the previous cell-state split. -/
def forgetUpdate {d : ℕ} (cf : Contrib d) (prevRelC prevIrrelC rc ic : Fin d → ℚ) :
    (Fin d → ℚ) × (Fin d → ℚ) :=
  (rc + (cf.rel + cf.bias) * prevRelC,
   ic + (cf.rel + cf.irrel + cf.bias) * prevIrrelC + cf.irrel * prevRelC)

/-- The cell-state split computed by one `cd_text` loop iteration
(`cd.py` lines 100-135). -/
def cdCell {d n c : ℕ} (M : TextModel d n c) (σ τ : ℚ → ℚ) (start stop : ℕ)
    (wv : ℕ → Fin n → ℚ) (i : ℕ) (s : CDState d) : (Fin d → ℚ) × (Fin d → ℚ) :=
  let pI := gatePre M.Whi M.Wii (inRange start stop i) (cdPrevRel i s) (cdPrevIrrel i s) (wv i)
  let pG := gatePre M.Whg M.Wig (inRange start stop i) (cdPrevRel i s) (cdPrevIrrel i s) (wv i)
  let ci := propagate_three σ pI.1 pI.2 (M.bihI + M.bhhI)
  let cg := propagate_three τ pG.1 pG.2 (M.bihG + M.bhhG)
  let cu := cellUpdate (inRange start stop i) ci cg
  if 0 < i then
    let pF := gatePre M.Whf M.Wif (inRange start stop i) (cdPrevRel i s) (cdPrevIrrel i s) (wv i)
    let cf := propagate_three σ pF.1 pF.2 (M.bihF + M.bhhF)
    forgetUpdate cf s.relC s.irrelC cu.1 cu.2
  else cu

/-- The combined (unsplit) output gate `o` of `cd.py` line 137:
`sigmoid(W_io · word_vecs[i] + W_ho · (prev_rel_h + prev_irrel_h) + b_o)`,
where `b_o` is the sum of the two output-gate bias vectors. -/
def cdOutGate {d n c : ℕ} (M : TextModel d n c) (σ : ℚ → ℚ)
    (wv : ℕ → Fin n → ℚ) (i : ℕ) (s : CDState d) : Fin d → ℚ :=
  fun j =>
    σ ((M.Wio.mulVec (wv i) + M.Who.mulVec (cdPrevRel i s + cdPrevIrrel i s)
        + (M.bihO + M.bhhO)) j)

/-- One full iteration of the `cd_text` loop (`cd.py` lines 92-143).  The
hidden-state split multiplies both tanh-split cell contributions by the same
combined output gate (`cd.py` lines 139-143; the split output-gate triple
computed at line 138 is unused by the committed code path and is omitted
here). -/
def cdStep {d n c : ℕ} (M : TextModel d n c) (σ τ : ℚ → ℚ) (start stop : ℕ)
    (wv : ℕ → Fin n → ℚ) (i : ℕ) (s : CDState d) : CDState d :=
  let cu := cdCell M σ τ start stop wv i s
  let o := cdOutGate M σ wv i s
  let nh := propagate_tanh_two τ cu.1 cu.2
  { relC := cu.1, irrelC := cu.2, relH := o * nh.1, irrelH := o * nh.2 }

/-- The `cd_text` loop run up to and including timestep `i`, starting from
the all-zero arrays of `cd.py` lines 88-91. -/
def cdRun {d n c : ℕ} (M : TextModel d n c) (σ τ : ℚ → ℚ) (start stop : ℕ)
    (wv : ℕ → Fin n → ℚ) : ℕ → CDState d
  | 0 => cdStep M σ τ start stop wv 0 ⟨0, 0, 0, 0⟩
  | i + 1 => cdStep M σ τ start stop wv (i + 1) (cdRun M σ τ start stop wv i)

/-- The relevant class scores of `cd_text` (`cd.py` line 148): the readout
weight applied to the relevant last hidden state, with no readout bias. -/
def cdTextScores {d n c : ℕ} (M : TextModel d n c) (σ τ : ℚ → ℚ) (start stop : ℕ)
    (wv : ℕ → Fin n → ℚ) (T : ℕ) : Fin c → ℚ :=
  M.Wout.mulVec (cdRun M σ τ start stop wv (T - 1)).relH

/-- The irrelevant class scores of `cd_text` (`cd.py` line 149). -/
def cdTextIrrelScores {d n c : ℕ} (M : TextModel d n c) (σ τ : ℚ → ℚ) (start stop : ℕ)
    (wv : ℕ → Fin n → ℚ) (T : ℕ) : Fin c → ℚ :=
  M.Wout.mulVec (cdRun M σ τ start stop wv (T - 1)).irrelH

/-! ### Reference forward pass

The standard (undecomposed) forward pass of the same single-layer LSTM
classifier, used to state the reconstruction properties.  Gate order and
bias handling follow the torch LSTM convention read by `cd_text`:
each gate's pre-activation is `W_ih · x + b_ih + W_hh · h + b_hh`. -/

/-- The input gate of the reference LSTM. -/
def gateI {d n c : ℕ} (M : TextModel d n c) (σ : ℚ → ℚ) (x : Fin n → ℚ)
    (h : Fin d → ℚ) : Fin d → ℚ :=
  fun j => σ ((M.Wii.mulVec x + M.bihI + M.Whi.mulVec h + M.bhhI) j)

/-- The forget gate of the reference LSTM. -/
def gateF {d n c : ℕ} (M : TextModel d n c) (σ : ℚ → ℚ) (x : Fin n → ℚ)
    (h : Fin d → ℚ) : Fin d → ℚ :=
  fun j => σ ((M.Wif.mulVec x + M.bihF + M.Whf.mulVec h + M.bhhF) j)

/-- The candidate (cell) gate of the reference LSTM. -/
def gateG {d n c : ℕ} (M : TextModel d n c) (τ : ℚ → ℚ) (x : Fin n → ℚ)
    (h : Fin d → ℚ) : Fin d → ℚ :=
  fun j => τ ((M.Wig.mulVec x + M.bihG + M.Whg.mulVec h + M.bhhG) j)

/-- The output gate of the reference LSTM. -/
def gateO {d n c : ℕ} (M : TextModel d n c) (σ : ℚ → ℚ) (x : Fin n → ℚ)
    (h : Fin d → ℚ) : Fin d → ℚ :=
  fun j => σ ((M.Wio.mulVec x + M.bihO + M.Who.mulVec h + M.bhhO) j)

/-- Hidden and cell state of the reference LSTM. -/
structure LSTMState (d : ℕ) where
  h : Fin d → ℚ
  c : Fin d → ℚ

/-- One cell update of the reference LSTM. -/
def lstmStep {d n c : ℕ} (M : TextModel d n c) (σ τ : ℚ → ℚ) (x : Fin n → ℚ)
    (s : LSTMState d) : LSTMState d :=
  let cNew := gateF M σ x s.h * s.c + gateI M σ x s.h * gateG M τ x s.h
  { h := gateO M σ x s.h * fun j => τ (cNew j), c := cNew }

/-- The reference LSTM run up to and including timestep `i`, from zero
initial hidden and cell state. -/
def lstmRun {d n c : ℕ} (M : TextModel d n c) (σ τ : ℚ → ℚ)
    (wv : ℕ → Fin n → ℚ) : ℕ → LSTMState d
  | 0 => lstmStep M σ τ (wv 0) ⟨0, 0⟩
  | i + 1 => lstmStep M σ τ (wv (i + 1)) (lstmRun M σ τ wv i)

/-- The full classifier logit of the reference model on a length-`T`
sequence: readout weight applied to the last hidden state, plus the readout
bias. -/
def fullLogit {d n c : ℕ} (M : TextModel d n c) (σ τ : ℚ → ℚ)
    (wv : ℕ → Fin n → ℚ) (T : ℕ) : Fin c → ℚ :=
  M.Wout.mulVec (lstmRun M σ τ wv (T - 1)).h + M.bout

/-- The reference hidden state entering timestep `i`: zero at `i = 0`, the
previous step's hidden state afterwards. -/
def refPrevH {d n c : ℕ} (M : TextModel d n c) (σ τ : ℚ → ℚ)
    (wv : ℕ → Fin n → ℚ) : ℕ → Fin d → ℚ
  | 0 => 0
  | i + 1 => (lstmRun M σ τ wv i).h

/-! ### Additive reconstruction lemmas -/

theorem propagate_three_sum {d : ℕ} (f : ℚ → ℚ) (a b bias : Fin d → ℚ) (j : Fin d) :
    (propagate_three f a b bias).rel j + (propagate_three f a b bias).irrel j
      + (propagate_three f a b bias).bias j = f (a j + b j + bias j) := by
  simp only [propagate_three]
  ring

theorem propagate_tanh_two_sum {d : ℕ} (τ : ℚ → ℚ) (a b : Fin d → ℚ) (j : Fin d) :
    (propagate_tanh_two τ a b).1 j + (propagate_tanh_two τ a b).2 j = τ (a j + b j) := by
  simp only [propagate_tanh_two]
  ring

/-- The three contributions of a gate's `propagate_three` call on the split
pre-activations sum to the activation of the undivided pre-activation. -/
theorem gatePre_three_sum {d n : ℕ} (f : ℚ → ℚ) (Wh : Matrix (Fin d) (Fin d) ℚ)
    (Wi : Matrix (Fin d) (Fin n) ℚ) (inR : Bool) (pr pv : Fin d → ℚ) (x : Fin n → ℚ)
    (bih bhh : Fin d → ℚ) (j : Fin d) :
    (propagate_three f (gatePre Wh Wi inR pr pv x).1 (gatePre Wh Wi inR pr pv x).2
        (bih + bhh)).rel j
      + (propagate_three f (gatePre Wh Wi inR pr pv x).1 (gatePre Wh Wi inR pr pv x).2
          (bih + bhh)).irrel j
      + (propagate_three f (gatePre Wh Wi inR pr pv x).1 (gatePre Wh Wi inR pr pv x).2
          (bih + bhh)).bias j
      = f ((Wi.mulVec x + bih + Wh.mulVec (pr + pv) + bhh) j) := by
  rw [propagate_three_sum]
  congr 1
  cases inR <;>
    simp only [gatePre, Bool.false_eq_true, if_false, if_true, Matrix.mulVec_add,
      Pi.add_apply] <;>
    ring

theorem cellUpdate_sum {d : ℕ} (inR : Bool) (ci cg : Contrib d) (j : Fin d) :
    (cellUpdate inR ci cg).1 j + (cellUpdate inR ci cg).2 j
      = (ci.rel j + ci.irrel j + ci.bias j) * (cg.rel j + cg.irrel j + cg.bias j) := by
  cases inR <;>
    simp only [cellUpdate, cellBase, Bool.false_eq_true, if_false, if_true,
      Pi.add_apply, Pi.mul_apply] <;>
    ring

theorem forgetUpdate_sum {d : ℕ} (cf : Contrib d) (pr pv rc ic : Fin d → ℚ) (j : Fin d) :
    (forgetUpdate cf pr pv rc ic).1 j + (forgetUpdate cf pr pv rc ic).2 j
      = rc j + ic j + (cf.rel j + cf.irrel j + cf.bias j) * (pr j + pv j) := by
  simp only [forgetUpdate, Pi.add_apply, Pi.mul_apply]
  ring

/-- The combined output gate computed at `cd.py` line 137 is the reference
output gate evaluated on the sum of the previous split hidden states. -/
theorem cdOutGate_eq_gateO {d n c : ℕ} (M : TextModel d n c) (σ : ℚ → ℚ)
    (wv : ℕ → Fin n → ℚ) (i : ℕ) (s : CDState d) :
    cdOutGate M σ wv i s = gateO M σ (wv i) (cdPrevRel i s + cdPrevIrrel i s) := by
  funext j
  simp only [cdOutGate, gateO, Pi.add_apply]
  congr 1
  ring

/-- The two sides of the cell-state split of one `cd_text` iteration sum to
the reference LSTM cell-state update evaluated at the summed previous
states. -/
theorem cdCell_sum {d n cdim : ℕ} (M : TextModel d n cdim) (σ τ : ℚ → ℚ)
    (start stop : ℕ) (wv : ℕ → Fin n → ℚ) (i : ℕ) (s : CDState d) (j : Fin d) :
    (cdCell M σ τ start stop wv i s).1 j + (cdCell M σ τ start stop wv i s).2 j
      = gateI M σ (wv i) (cdPrevRel i s + cdPrevIrrel i s) j
          * gateG M τ (wv i) (cdPrevRel i s + cdPrevIrrel i s) j
        + (if 0 < i then
            gateF M σ (wv i) (cdPrevRel i s + cdPrevIrrel i s) j
              * (s.relC j + s.irrelC j)
          else 0) := by
  by_cases hi : 0 < i
  · simp only [cdCell, if_pos hi]
    rw [forgetUpdate_sum, cellUpdate_sum, gatePre_three_sum, gatePre_three_sum,
      gatePre_three_sum]
    simp only [gateI, gateG, gateF, Pi.add_apply]
  · simp only [cdCell, if_neg hi]
    rw [cellUpdate_sum, gatePre_three_sum, gatePre_three_sum]
    simp only [gateI, gateG, Pi.add_apply, add_zero]

/-- The hidden-state split of one `cd_text` iteration: both sides carry the
same combined output gate, and they sum to that gate times the tanh of the
summed cell split. -/
theorem cdStep_h_sum {d n cdim : ℕ} (M : TextModel d n cdim) (σ τ : ℚ → ℚ)
    (start stop : ℕ) (wv : ℕ → Fin n → ℚ) (i : ℕ) (s : CDState d) (j : Fin d) :
    (cdStep M σ τ start stop wv i s).relH j + (cdStep M σ τ start stop wv i s).irrelH j
      = gateO M σ (wv i) (cdPrevRel i s + cdPrevIrrel i s) j
          * τ ((cdCell M σ τ start stop wv i s).1 j
                + (cdCell M σ τ start stop wv i s).2 j) := by
  simp only [cdStep, Pi.mul_apply]
  rw [← mul_add, propagate_tanh_two_sum, cdOutGate_eq_gateO]

/-- One `cd_text` iteration preserves the additive reconstruction of the
reference LSTM state. -/
theorem cdStep_matches_lstm {d n cdim : ℕ} (M : TextModel d n cdim) (σ τ : ℚ → ℚ)
    (start stop : ℕ) (wv : ℕ → Fin n → ℚ) (i : ℕ) (s : CDState d) (ls : LSTMState d)
    (hh : cdPrevRel i s + cdPrevIrrel i s = ls.h)
    (hc : (if 0 < i then s.relC + s.irrelC else 0) = ls.c) :
    (cdStep M σ τ start stop wv i s).relC + (cdStep M σ τ start stop wv i s).irrelC
        = (lstmStep M σ τ (wv i) ls).c
      ∧ (cdStep M σ τ start stop wv i s).relH + (cdStep M σ τ start stop wv i s).irrelH
        = (lstmStep M σ τ (wv i) ls).h := by
  have hC : ∀ j, (cdCell M σ τ start stop wv i s).1 j + (cdCell M σ τ start stop wv i s).2 j
      = (lstmStep M σ τ (wv i) ls).c j := by
    intro j
    rw [cdCell_sum, hh]
    by_cases hi : 0 < i
    · rw [if_pos hi] at hc ⊢
      have hcj : s.relC j + s.irrelC j = ls.c j := by
        have := congrFun hc j
        simpa using this
      simp only [lstmStep, Pi.add_apply, Pi.mul_apply]
      rw [hcj]
      ring
    · rw [if_neg hi] at hc ⊢
      simp only [lstmStep, Pi.add_apply, Pi.mul_apply]
      rw [← hc]
      simp
  constructor
  · funext j
    have := hC j
    simpa [cdStep, Pi.add_apply] using this
  · funext j
    simp only [Pi.add_apply]
    rw [cdStep_h_sum, hh, hC j]
    simp only [lstmStep, Pi.mul_apply]

/-- The `cd_text` recurrence reconstructs the reference LSTM state at every
timestep: the cell split and the hidden split each sum to the standard
forward pass values. -/
theorem cdRun_matches_lstm {d n cdim : ℕ} (M : TextModel d n cdim) (σ τ : ℚ → ℚ)
    (start stop : ℕ) (wv : ℕ → Fin n → ℚ) (i : ℕ) :
    (cdRun M σ τ start stop wv i).relC + (cdRun M σ τ start stop wv i).irrelC
        = (lstmRun M σ τ wv i).c
      ∧ (cdRun M σ τ start stop wv i).relH + (cdRun M σ τ start stop wv i).irrelH
        = (lstmRun M σ τ wv i).h := by
  induction i with
  | zero =>
    refine cdStep_matches_lstm M σ τ start stop wv 0 ⟨0, 0, 0, 0⟩ ⟨0, 0⟩ ?_ ?_
    · simp [cdPrevRel, cdPrevIrrel]
    · simp
  | succ k ih =>
    refine cdStep_matches_lstm M σ τ start stop wv (k + 1)
      (cdRun M σ τ start stop wv k) (lstmRun M σ τ wv k) ?_ ?_
    · simpa [cdPrevRel, cdPrevIrrel] using ih.2
    · simpa using ih.1

/-- The state that the `cd_text` loop iteration at timestep `i` reads: the
all-zero arrays at `i = 0`, the previous iteration's state afterwards. -/
def cdPrevState {d n cdim : ℕ} (M : TextModel d n cdim) (σ τ : ℚ → ℚ)
    (start stop : ℕ) (wv : ℕ → Fin n → ℚ) : ℕ → CDState d
  | 0 => ⟨0, 0, 0, 0⟩
  | k + 1 => cdRun M σ τ start stop wv k

theorem cdRun_eq_step {d n cdim : ℕ} (M : TextModel d n cdim) (σ τ : ℚ → ℚ)
    (start stop : ℕ) (wv : ℕ → Fin n → ℚ) (i : ℕ) :
    cdRun M σ τ start stop wv i
      = cdStep M σ τ start stop wv i (cdPrevState M σ τ start stop wv i) := by
  cases i <;> rfl

/-- The summed previous split hidden states read at timestep `i` equal the
reference LSTM's hidden state entering timestep `i`. -/
theorem cdPrev_sum_eq_refPrevH {d n cdim : ℕ} (M : TextModel d n cdim) (σ τ : ℚ → ℚ)
    (start stop : ℕ) (wv : ℕ → Fin n → ℚ) (i : ℕ) :
    cdPrevRel i (cdPrevState M σ τ start stop wv i)
        + cdPrevIrrel i (cdPrevState M σ τ start stop wv i)
      = refPrevH M σ τ wv i := by
  cases i with
  | zero => simp [cdPrevState, cdPrevRel, cdPrevIrrel, refPrevH]
  | succ k =>
    simpa [cdPrevState, cdPrevRel, cdPrevIrrel, refPrevH] using
      (cdRun_matches_lstm M σ τ start stop wv k).2

/-! ### Claim theorems (C1-C5) -/

/-- C1: for every linear (or convolutional, represented by its linear map)
layer and every pair of equally-shaped input tensors, the linear
decomposition primitive returns a pair whose sum equals the layer applied to
the summed input, exactly — including the bias-handling edge case where the
bias is split evenly because both inputs are exactly zero. -/
theorem propagate_linear_like_reconstructs {m n : ℕ} (L : LinLayer m n)
    (r i : Fin n → ℚ) :
    (propagate_linear_like r i L).1 + (propagate_linear_like r i L).2
      = L.apply (r + i) := by
  cases hb : L.bias with
  | none =>
    funext j
    simp [propagate_linear_like, LinLayer.apply, hb, Matrix.mulVec_add]
  | some b =>
    by_cases hz : r = 0 ∧ i = 0
    · funext j
      simp only [propagate_linear_like, hb, if_pos hz, LinLayer.apply,
        Option.getD_some, Matrix.mulVec_add, Pi.add_apply]
      ring
    · funext j
      simp only [propagate_linear_like, hb, if_neg hz, LinLayer.apply,
        Option.getD_some, Matrix.mulVec_add, Pi.add_apply]
      ring

/-- C2: `cd_text` computes its class scores by applying only the readout
weight matrix (no readout bias) separately to the relevant and irrelevant
last hidden states, and the two score vectors sum exactly to the full
model's pre-bias logit, i.e. the LSTM classifier's output minus the readout
bias. -/
theorem cd_text_scores_reconstruct {d n cdim : ℕ} (M : TextModel d n cdim)
    (σ τ : ℚ → ℚ) (start stop : ℕ) (wv : ℕ → Fin n → ℚ) (T : ℕ) :
    cdTextScores M σ τ start stop wv T
        = M.Wout.mulVec (cdRun M σ τ start stop wv (T - 1)).relH
      ∧ cdTextIrrelScores M σ τ start stop wv T
        = M.Wout.mulVec (cdRun M σ τ start stop wv (T - 1)).irrelH
      ∧ cdTextScores M σ τ start stop wv T + cdTextIrrelScores M σ τ start stop wv T
        = fullLogit M σ τ wv T - M.bout := by
  refine ⟨rfl, rfl, ?_⟩
  have h := (cdRun_matches_lstm M σ τ start stop wv (T - 1)).2
  simp only [cdTextScores, cdTextIrrelScores, fullLogit]
  rw [← Matrix.mulVec_add, h, add_sub_cancel_right]

/-- C3: at every timestep the output gate is kept unsplit: both the relevant
and the irrelevant new hidden state are the same combined gate value — the
sigmoid of the full undivided output-gate pre-activation (input-to-hidden
term plus hidden-to-hidden term on the true previous hidden state plus
bias) — multiplied by the respective tanh-split cell-state contribution. -/
theorem cd_text_output_gate_unsplit {d n cdim : ℕ} (M : TextModel d n cdim)
    (σ τ : ℚ → ℚ) (start stop : ℕ) (wv : ℕ → Fin n → ℚ) (i : ℕ) :
    (cdRun M σ τ start stop wv i).relH
        = gateO M σ (wv i) (refPrevH M σ τ wv i)
            * (propagate_tanh_two τ (cdRun M σ τ start stop wv i).relC
                (cdRun M σ τ start stop wv i).irrelC).1
      ∧ (cdRun M σ τ start stop wv i).irrelH
        = gateO M σ (wv i) (refPrevH M σ τ wv i)
            * (propagate_tanh_two τ (cdRun M σ τ start stop wv i).relC
                (cdRun M σ τ start stop wv i).irrelC).2 := by
  rw [cdRun_eq_step]
  rw [← cdPrev_sum_eq_refPrevH M σ τ start stop wv i, ← cdOutGate_eq_gateO]
  exact ⟨rfl, rfl⟩

/-- C4: at every timestep, each gate's pre-activation pair routes the current
token's input-to-hidden contribution entirely to the relevant side when
`start ≤ i ≤ stop` and entirely to the irrelevant side otherwise; it is
never split — the two sides always sum to the full hidden-to-hidden terms
plus the whole input-to-hidden term. -/
theorem cd_text_input_routing {d n : ℕ} (Wh : Matrix (Fin d) (Fin d) ℚ)
    (Wi : Matrix (Fin d) (Fin n) ℚ) (start stop i : ℕ)
    (prevRel prevIrrel : Fin d → ℚ) (x : Fin n → ℚ) :
    gatePre Wh Wi (inRange start stop i) prevRel prevIrrel x
        = (if start ≤ i ∧ i ≤ stop
            then (Wh.mulVec prevRel + Wi.mulVec x, Wh.mulVec prevIrrel)
            else (Wh.mulVec prevRel, Wh.mulVec prevIrrel + Wi.mulVec x))
      ∧ (gatePre Wh Wi (inRange start stop i) prevRel prevIrrel x).1
          + (gatePre Wh Wi (inRange start stop i) prevRel prevIrrel x).2
        = Wh.mulVec prevRel + Wh.mulVec prevIrrel + Wi.mulVec x := by
  constructor
  · by_cases h : start ≤ i ∧ i ≤ stop <;> simp [gatePre, inRange, h]
  · by_cases h : start ≤ i ∧ i ≤ stop <;> simp [gatePre, inRange, h] <;> abel

/-- C5: the gate-bias cross term `bias_contrib_i * bias_contrib_g` is added
to the relevant cell-state update when `start ≤ i ≤ stop` and to the
irrelevant cell-state update otherwise, on top of the fixed base terms; in
both cases the two updates sum to the full product of the two gates' total
contributions. -/
theorem cd_text_bias_cross_routing {d : ℕ} (start stop i : ℕ) (ci cg : Contrib d) :
    cellUpdate (inRange start stop i) ci cg
        = (if start ≤ i ∧ i ≤ stop
            then ((cellBase ci cg).1 + ci.bias * cg.bias, (cellBase ci cg).2)
            else ((cellBase ci cg).1, (cellBase ci cg).2 + ci.bias * cg.bias))
      ∧ (cellUpdate (inRange start stop i) ci cg).1
          + (cellUpdate (inRange start stop i) ci cg).2
        = (ci.rel + ci.irrel + ci.bias) * (cg.rel + cg.irrel + cg.bias) := by
  constructor
  · by_cases h : start ≤ i ∧ i ≤ stop <;> simp [cellUpdate, inRange, h]
  · funext j
    simp only [Pi.add_apply, Pi.mul_apply]
    rw [cellUpdate_sum]

/-! ### Range handling in `cd_text` (C7) -/

theorem inRange_false_of_lt {start stop i : ℕ} (h : stop < start) :
    inRange start stop i = false := by
  simp only [inRange, decide_eq_false_iff_not]
  rintro ⟨h1, h2⟩
  omega

theorem propagate_three_rel_zero {d : ℕ} (f : ℚ → ℚ) (b bias : Fin d → ℚ) :
    (propagate_three f 0 b bias).rel = 0 := by
  funext j
  simp [propagate_three]

theorem propagate_tanh_two_fst_zero {d : ℕ} (τ : ℚ → ℚ) (hτ : τ 0 = 0)
    (b : Fin d → ℚ) : (propagate_tanh_two τ 0 b).1 = 0 := by
  funext j
  simp [propagate_tanh_two, hτ]

/-- With an empty index range, one `cd_text` iteration keeps the relevant
side of both the cell and the hidden state at zero. -/
theorem cdStep_rel_zero {d n cdim : ℕ} (M : TextModel d n cdim) (σ τ : ℚ → ℚ)
    (start stop : ℕ) (wv : ℕ → Fin n → ℚ) (i : ℕ) (s : CDState d)
    (hr : stop < start) (hτ : τ 0 = 0) (hC : s.relC = 0) (hH : s.relH = 0) :
    (cdStep M σ τ start stop wv i s).relC = 0
      ∧ (cdStep M σ τ start stop wv i s).relH = 0 := by
  have hprev : cdPrevRel i s = 0 := by
    simp [cdPrevRel, hH]
  have hcell : (cdCell M σ τ start stop wv i s).1 = 0 := by
    funext j
    simp only [cdCell, inRange_false_of_lt hr]
    rw [hprev]
    by_cases hi : 0 < i
    · rw [if_pos hi]
      simp [forgetUpdate, gatePre, cellUpdate, cellBase, propagate_three, hC,
        Matrix.mulVec_zero]
    · rw [if_neg hi]
      simp [gatePre, cellUpdate, cellBase, propagate_three, Matrix.mulVec_zero]
  refine ⟨hcell, ?_⟩
  show cdOutGate M σ wv i s
      * (propagate_tanh_two τ (cdCell M σ τ start stop wv i s).1
          (cdCell M σ τ start stop wv i s).2).1 = 0
  rw [hcell, propagate_tanh_two_fst_zero τ hτ]
  funext j
  simp

/-- With an empty index range, the relevant side of the `cd_text`
state stays zero at every timestep. -/
theorem cdRun_rel_zero {d n cdim : ℕ} (M : TextModel d n cdim) (σ τ : ℚ → ℚ)
    (start stop : ℕ) (wv : ℕ → Fin n → ℚ) (hr : stop < start) (hτ : τ 0 = 0) :
    ∀ i, (cdRun M σ τ start stop wv i).relC = 0
      ∧ (cdRun M σ τ start stop wv i).relH = 0 := by
  intro i
  induction i with
  | zero => exact cdStep_rel_zero M σ τ start stop wv 0 ⟨0, 0, 0, 0⟩ hr hτ rfl rfl
  | succ k ih =>
    exact cdStep_rel_zero M σ τ start stop wv (k + 1)
      (cdRun M σ τ start stop wv k) hr hτ ih.1 ih.2

/-- C7 (amended): `cd_text` performs no range validation.  A call whose
range is empty (`start > stop`) returns a normal score result rather than
failing; all token contributions are routed to the irrelevant side, so the
relevant class scores are zero (for any tanh-like activation fixing 0). -/
theorem cd_text_invalid_range_returns {d n cdim : ℕ} (M : TextModel d n cdim)
    (σ τ : ℚ → ℚ) (start stop : ℕ) (wv : ℕ → Fin n → ℚ) (T : ℕ)
    (hr : stop < start) (hτ : τ 0 = 0) :
    cdTextScores M σ τ start stop wv T = 0 := by
  simp only [cdTextScores]
  rw [(cdRun_rel_zero M σ τ start stop wv hr hτ (T - 1)).2, Matrix.mulVec_zero]

/-! ### Batch handling in `cd_text` (C9) -/

/-- The word vectors consumed by `cd_text` (`cd.py` line 86): the embedding
of the batch's token tensor, restricted to batch column 0. -/
def batchWordVecs {n : ℕ} (embed : ℤ → Fin n → ℚ) (batchText : ℕ → ℕ → ℤ) :
    ℕ → Fin n → ℚ :=
  fun t => embed (batchText t 0)

/-- `cd_text` on a batch: the relevant class scores. -/
def cd_text_scores {d n cdim : ℕ} (M : TextModel d n cdim) (σ τ : ℚ → ℚ)
    (embed : ℤ → Fin n → ℚ) (batchText : ℕ → ℕ → ℤ) (start stop T : ℕ) :
    Fin cdim → ℚ :=
  cdTextScores M σ τ start stop (batchWordVecs embed batchText) T

/-- `cd_text` on a batch: the irrelevant class scores (returned when
`return_irrel_scores` is set). -/
def cd_text_irrel_scores {d n cdim : ℕ} (M : TextModel d n cdim) (σ τ : ℚ → ℚ)
    (embed : ℤ → Fin n → ℚ) (batchText : ℕ → ℕ → ℤ) (start stop T : ℕ) :
    Fin cdim → ℚ :=
  cdTextIrrelScores M σ τ start stop (batchWordVecs embed batchText) T

theorem cdStep_wv_congr {d n cdim : ℕ} (M : TextModel d n cdim) (σ τ : ℚ → ℚ)
    (start stop : ℕ) (wv1 wv2 : ℕ → Fin n → ℚ) (i : ℕ) (s : CDState d)
    (h : wv1 i = wv2 i) :
    cdStep M σ τ start stop wv1 i s = cdStep M σ τ start stop wv2 i s := by
  have ho : cdOutGate M σ wv1 i s = cdOutGate M σ wv2 i s := by
    funext j
    simp only [cdOutGate, h]
  simp only [cdStep, cdCell, h, ho]

theorem cdRun_wv_congr {d n cdim : ℕ} (M : TextModel d n cdim) (σ τ : ℚ → ℚ)
    (start stop : ℕ) (wv1 wv2 : ℕ → Fin n → ℚ) :
    ∀ i, (∀ t, t ≤ i → wv1 t = wv2 t) →
      cdRun M σ τ start stop wv1 i = cdRun M σ τ start stop wv2 i := by
  intro i
  induction i with
  | zero =>
    intro h
    exact cdStep_wv_congr M σ τ start stop wv1 wv2 0 ⟨0, 0, 0, 0⟩ (h 0 le_rfl)
  | succ k ih =>
    intro h
    have hrun := ih fun t ht => h t (le_trans ht (Nat.le_succ k))
    calc cdRun M σ τ start stop wv1 (k + 1)
        = cdStep M σ τ start stop wv1 (k + 1) (cdRun M σ τ start stop wv1 k) := rfl
      _ = cdStep M σ τ start stop wv1 (k + 1) (cdRun M σ τ start stop wv2 k) := by
          rw [hrun]
      _ = cdStep M σ τ start stop wv2 (k + 1) (cdRun M σ τ start stop wv2 k) :=
          cdStep_wv_congr M σ τ start stop wv1 wv2 (k + 1) _ (h (k + 1) le_rfl)
      _ = cdRun M σ τ start stop wv2 (k + 1) := rfl

/-- C9: `cd_text`'s result depends only on column 0 of the batch: any two
batches whose column-0 tokens agree at every timestep of the sequence yield
identical scores and irrelevant scores. -/
theorem cd_text_depends_only_on_column_zero {d n cdim : ℕ} (M : TextModel d n cdim)
    (σ τ : ℚ → ℚ) (embed : ℤ → Fin n → ℚ) (b1 b2 : ℕ → ℕ → ℤ)
    (start stop T : ℕ) (hT : 0 < T) (h : ∀ t, t < T → b1 t 0 = b2 t 0) :
    cd_text_scores M σ τ embed b1 start stop T
        = cd_text_scores M σ τ embed b2 start stop T
      ∧ cd_text_irrel_scores M σ τ embed b1 start stop T
        = cd_text_irrel_scores M σ τ embed b2 start stop T := by
  have hrun : cdRun M σ τ start stop (batchWordVecs embed b1) (T - 1)
      = cdRun M σ τ start stop (batchWordVecs embed b2) (T - 1) := by
    apply cdRun_wv_congr
    intro t ht
    simp only [batchWordVecs]
    rw [h t (by omega)]
  constructor
  · simp only [cd_text_scores, cdTextScores, hrun]
  · simp only [cd_text_irrel_scores, cdTextIrrelScores, hrun]

/-! ### Layer-wise propagator (`cd`, `cd_propagate_mnist`, `cd_track_vgg`)

Tensors are modelled as flat rational vectors (`List ℚ`); a convolution is
represented by the matrix of the linear map it induces (the decomposition
primitive treats convolutional and fully-connected layers identically), so
`reshape`/`view` flattening steps are the identity in this model. -/

/-- Dot product of a weight row with a flat input vector. -/
def dotL (w x : List ℚ) : ℚ := (List.zipWith (· * ·) w x).foldr (· + ·) 0

/-- A module as seen by the propagator loops: the runtime type-name string
that `cd` dispatches on (`str(type(mod))`), the weight matrix and bias of
linear/convolutional modules, and the pooling window of pooling modules. -/
structure GMod where
  ty : String
  weight : List (List ℚ)
  bias : List ℚ
  poolK : ℕ

instance : Inhabited GMod := ⟨⟨"", [], [], 1⟩⟩

/-- Boolean prefix test on character lists. -/
def charsStartWith : List Char → List Char → Bool
  | [], _ => true
  | _ :: _, [] => false
  | a :: as, b :: bs => a == b && charsStartWith as bs

/-- Boolean infix (substring) test on character lists. -/
def charsInfix (pat : List Char) : List Char → Bool
  | [] => charsStartWith pat []
  | b :: bs => charsStartWith pat (b :: bs) || charsInfix pat bs

/-- The substring test `'X' in str(type(mod))` used by `cd`'s dispatch
(`cd.py` lines 45-56). -/
def strContains (t pat : String) : Bool := charsInfix pat.data t.data

/-- Modelled from the spec: `propagate_conv_linear` from the absent
`cd_propagate` module.  The module's linear transform is applied separately
to the two sides; the entire bias is assigned to the irrelevant side unless
both inputs are exactly zero, in which case it is split evenly. -/
def propagate_conv_linear (relevant irrelevant : List ℚ) (m : GMod) :
    List ℚ × List ℚ :=
  let wr := m.weight.map fun row => dotL row relevant
  let wi := m.weight.map fun row => dotL row irrelevant
  if (relevant.all fun x => decide (x = 0)) && (irrelevant.all fun x => decide (x = 0)) then
    (List.zipWith (· + ·) wr (m.bias.map (· / 2)),
     List.zipWith (· + ·) wi (m.bias.map (· / 2)))
  else (wr, List.zipWith (· + ·) wi m.bias)

/-- Rational ReLU. -/
def reluQ (x : ℚ) : ℚ := max x 0

/-- Modelled from the spec: the elementwise ReLU apportionment table of
`propagate_relu`.  Both sides nonnegative pass through unchanged; both
negative yield zero on both sides; with mixed signs the activation of the
sum is attributed entirely to the nonnegative side. -/
def reluSplit (r i : ℚ) : ℚ × ℚ :=
  if 0 ≤ r then
    (if 0 ≤ i then (r, i) else (reluQ (r + i), 0))
  else
    (if 0 ≤ i then (0, reluQ (r + i)) else (0, 0))

/-- Modelled from the spec: `propagate_relu` from the absent `cd_propagate`
module, applying the apportionment table elementwise. -/
def propagate_relu (relevant irrelevant : List ℚ) : List ℚ × List ℚ :=
  (List.zipWith (fun a b => (reluSplit a b).1) relevant irrelevant,
   List.zipWith (fun a b => (reluSplit a b).2) relevant irrelevant)

/-- Index of the first maximal element of a list (0 on the empty list). -/
def argmaxIdx : List ℚ → ℕ
  | [] => 0
  | x :: xs =>
    let k := argmaxIdx xs
    if xs.getD k x ≤ x then 0 else k + 1

/-- Splits a list into consecutive windows of `k + 1` elements (a possibly
shorter final window). -/
def chunksAux (k : ℕ) : List ℚ → List (List ℚ)
  | [] => []
  | x :: xs => (x :: xs.take k) :: chunksAux k (xs.drop k)
termination_by l => l.length
decreasing_by
  simp only [List.length_drop, List.length_cons]
  omega

/-- Consecutive pooling windows of width `w`. -/
def windows (w : ℕ) (l : List ℚ) : List (List ℚ) := chunksAux (w - 1) l

/-- Modelled from the spec: `propagate_pooling` from the absent
`cd_propagate` module.  Max-pooling runs over `relevant + irrelevant` to
find the arg-max location per window; both sides are gathered at that same
location, so their sum equals the pooled combined value. -/
def propagate_pooling (k : ℕ) (relevant irrelevant : List ℚ) :
    List ℚ × List ℚ :=
  let both := List.zipWith (· + ·) relevant irrelevant
  let idxs := (windows k both).map argmaxIdx
  (List.zipWith (fun c j => c.getD j 0) (windows k relevant) idxs,
   List.zipWith (fun c j => c.getD j 0) (windows k irrelevant) idxs)

/-- Modelled from the spec: `propagate_dropout` from the absent
`cd_propagate` module.  In training mode the module's shared random-mask
application (abstracted as `dropFn`, applied identically to both sides) is
used; at inference it is the identity. -/
def propagate_dropout (train : Bool) (dropFn : List ℚ → List ℚ)
    (relevant irrelevant : List ℚ) : List ℚ × List ℚ :=
  if train then (dropFn relevant, dropFn irrelevant) else (relevant, irrelevant)

/-- One iteration of `cd`'s generic per-layer loop (`cd.py` lines 44-57):
stringly-typed dispatch on the module's runtime type name, in the source's
branch order.  The `Linear` branch's `reshape(shape[0], -1)` is the identity
on the flat tensors of this model. -/
def cdModStep (train : Bool) (dropFn : List ℚ → List ℚ)
    (ri : List ℚ × List ℚ) (m : GMod) : List ℚ × List ℚ :=
  if strContains m.ty "Conv2d" then propagate_conv_linear ri.1 ri.2 m
  else if strContains m.ty "Linear" then propagate_conv_linear ri.1 ri.2 m
  else if strContains m.ty "ReLU" then propagate_relu ri.1 ri.2
  else if strContains m.ty "MaxPool2d" then propagate_pooling m.poolK ri.1 ri.2
  else if strContains m.ty "Dropout" then propagate_dropout train dropFn ri.1 ri.2
  else ri

/-- A model as consumed by the layer-wise propagator: its train/eval mode
flag and the ordered `model.modules()` list. -/
structure NNModel where
  training : Bool
  mods : List GMod

/-- The fixed mnist pipeline `cd_propagate_mnist` (`cd.py` lines 157-176),
over `list(model.modules())[1:]`; `view(-1, 320)` is the identity on flat
tensors. -/
def cd_propagate_mnist (relevant irrelevant : List ℚ) (model : NNModel) :
    List ℚ × List ℚ :=
  let mods := model.mods.drop 1
  let p := propagate_conv_linear relevant irrelevant (mods.getD 0 default)
  let p := propagate_pooling 2 p.1 p.2
  let p := propagate_relu p.1 p.2
  let p := propagate_conv_linear p.1 p.2 (mods.getD 1 default)
  let p := propagate_pooling 2 p.1 p.2
  let p := propagate_relu p.1 p.2
  let p := propagate_conv_linear p.1 p.2 (mods.getD 3 default)
  let p := propagate_relu p.1 p.2
  propagate_conv_linear p.1 p.2 (mods.getD 4 default)

/-- The layer-wise propagator `cd` (`cd.py` lines 9-59).  The mask is taken
by value (the source copies it into a fresh `FloatTensor`); `model.eval()`
is modelled as the returned model having its training flag cleared, and the
loop runs on that evaluated model. -/
def cd (dropFn : List ℚ → List ℚ) (mask im : List ℚ) (model : NNModel)
    (modelType : Option String) : (List ℚ × List ℚ) × NNModel :=
  let evaled : NNModel := { model with training := false }
  let relevant := List.zipWith (· * ·) mask im
  let irrelevant := List.zipWith (· * ·) (mask.map (1 - ·)) im
  if modelType = some "mnist" then
    (cd_propagate_mnist relevant irrelevant evaled, evaled)
  else
    (evaled.mods.foldl (cdModStep evaled.training dropFn) (relevant, irrelevant),
     evaled)

/-- The tracked VGG16 propagation `cd_track_vgg` (`cd.py` lines 179-293):
the fixed hand-unrolled pipeline with hard-coded module indices into
`list(model.modules())[2:]`, recording a `(relevant, irrelevant)` snapshot
after each convolutional layer.  The snapshot appends after the pooling
layers are commented out in the source, and none are taken after ReLU,
pooling, dropout or classifier layers; the source calls `model.eval()`, so
the two classifier dropout applications run at inference (training flag
false, training-mode behavior irrelevant and fixed to `id` here). -/
def cd_track_vgg (blob im : List ℚ) (model : NNModel) :
    (List ℚ × List ℚ) × List (List ℚ × List ℚ) :=
  let g : ℕ → GMod := fun k => (model.mods.drop 2).getD k default
  let p0 := propagate_conv_linear (List.zipWith (· * ·) blob im)
      (List.zipWith (· * ·) (blob.map (1 - ·)) im) (g 0)
  let p1 := propagate_relu p0.1 p0.2
  let p2 := propagate_conv_linear p1.1 p1.2 (g 2)
  let p3 := propagate_relu p2.1 p2.2
  let p4 := propagate_pooling (g 4).poolK p3.1 p3.2
  let p5 := propagate_conv_linear p4.1 p4.2 (g 5)
  let p6 := propagate_relu p5.1 p5.2
  let p7 := propagate_conv_linear p6.1 p6.2 (g 7)
  let p8 := propagate_relu p7.1 p7.2
  let p9 := propagate_pooling (g 9).poolK p8.1 p8.2
  let p10 := propagate_conv_linear p9.1 p9.2 (g 10)
  let p11 := propagate_relu p10.1 p10.2
  let p12 := propagate_conv_linear p11.1 p11.2 (g 12)
  let p13 := propagate_relu p12.1 p12.2
  let p14 := propagate_conv_linear p13.1 p13.2 (g 14)
  let p15 := propagate_relu p14.1 p14.2
  let p16 := propagate_pooling (g 16).poolK p15.1 p15.2
  let p17 := propagate_conv_linear p16.1 p16.2 (g 17)
  let p18 := propagate_relu p17.1 p17.2
  let p19 := propagate_conv_linear p18.1 p18.2 (g 19)
  let p20 := propagate_relu p19.1 p19.2
  let p21 := propagate_conv_linear p20.1 p20.2 (g 21)
  let p22 := propagate_relu p21.1 p21.2
  let p23 := propagate_pooling (g 23).poolK p22.1 p22.2
  let p24 := propagate_conv_linear p23.1 p23.2 (g 24)
  let p25 := propagate_relu p24.1 p24.2
  let p26 := propagate_conv_linear p25.1 p25.2 (g 26)
  let p27 := propagate_relu p26.1 p26.2
  let p28 := propagate_conv_linear p27.1 p27.2 (g 28)
  let p29 := propagate_relu p28.1 p28.2
  let p30 := propagate_pooling (g 30).poolK p29.1 p29.2
  let p32 := propagate_conv_linear p30.1 p30.2 (g 32)
  let p33 := propagate_relu p32.1 p32.2
  let p34 := propagate_dropout false id p33.1 p33.2
  let p35 := propagate_conv_linear p34.1 p34.2 (g 35)
  let p36 := propagate_relu p35.1 p35.2
  let p37 := propagate_dropout false id p36.1 p36.2
  let p38 := propagate_conv_linear p37.1 p37.2 (g 38)
  (p38, [p0, p2, p5, p7, p10, p12, p14, p17, p19, p21, p24, p26, p28])

/-- The number of module applications (layer boundaries crossed) by
`cd_track_vgg`: the 31 feature-section modules `mods[0..30]` plus the 7
classifier modules `mods[32..38]`. -/
def vggLayerApplications : ℕ := 38

/-- C6: a module whose runtime type name matches none of the recognized
kinds (convolution, linear, ReLU, max-pooling, dropout) passes the
`(relevant, irrelevant)` pair through `cd`'s loop unchanged: the iteration
is the identity and no error is raised. -/
theorem cd_unrecognized_module_identity (train : Bool) (dropFn : List ℚ → List ℚ)
    (m : GMod) (r i : List ℚ)
    (h1 : strContains m.ty "Conv2d" = false)
    (h2 : strContains m.ty "Linear" = false)
    (h3 : strContains m.ty "ReLU" = false)
    (h4 : strContains m.ty "MaxPool2d" = false)
    (h5 : strContains m.ty "Dropout" = false) :
    cdModStep train dropFn (r, i) m = (r, i) := by
  simp [cdModStep, h1, h2, h3, h4, h5]

/-- Witness for C6 at a concrete unrecognized module (a batch-norm
layer). -/
theorem cd_unrecognized_module_identity_witness :
    strContains "BatchNorm2d" "Conv2d" = false
      ∧ strContains "BatchNorm2d" "Linear" = false
      ∧ strContains "BatchNorm2d" "ReLU" = false
      ∧ strContains "BatchNorm2d" "MaxPool2d" = false
      ∧ strContains "BatchNorm2d" "Dropout" = false
      ∧ cdModStep true id ([1, 2], [3, 4]) ⟨"BatchNorm2d", [], [], 1⟩
        = ([1, 2], [3, 4]) :=
  ⟨by decide, by decide, by decide, by decide, by decide,
   cd_unrecognized_module_identity true id ⟨"BatchNorm2d", [], [], 1⟩ [1, 2] [3, 4]
     (by decide) (by decide) (by decide) (by decide) (by decide)⟩

/-- C10: `cd` leaves the model's parameter tensors (the module list)
untouched and takes the mask by value, but clears the model's training flag
(`model.eval()`); consequently its result is independent of the model's
prior training mode and of the dropout training-mode behavior — every
dropout layer encountered acts as the identity. -/
theorem cd_frame_effects (dropFn dropFn2 : List ℚ → List ℚ) (mask im : List ℚ)
    (mods : List GMod) (mt : Option String) (b b2 : Bool) :
    (cd dropFn mask im ⟨b, mods⟩ mt).2.mods = mods
      ∧ (cd dropFn mask im ⟨b, mods⟩ mt).2.training = false
      ∧ (cd dropFn mask im ⟨b, mods⟩ mt).1 = (cd dropFn2 mask im ⟨b2, mods⟩ mt).1 := by
  refine ⟨?_, ?_, ?_⟩
  · by_cases h : mt = some "mnist" <;> simp [cd, h]
  · by_cases h : mt = some "mnist" <;> simp [cd, h]
  · have hstep : cdModStep false dropFn = cdModStep false dropFn2 := by
      funext ri m
      simp [cdModStep, propagate_dropout]
    by_cases h : mt = some "mnist" <;> simp [cd, h, hstep]

/-- C8 counterexample: on a concrete call, `cd_track_vgg` returns 13
intermediate snapshots, not one per layer boundary of the propagated model
(38 module applications). -/
theorem cd_track_vgg_counterexample :
    (cd_track_vgg [] [] ⟨true, []⟩).2.length = 13
      ∧ (cd_track_vgg [] [] ⟨true, []⟩).2.length ≠ vggLayerApplications := by
  constructor
  · rfl
  · decide

/-- C8 (amended): the tracked variant returns, besides the final pair, an
ordered sequence of exactly 13 intermediate `(relevant, irrelevant)`
snapshots — one after each convolutional layer, the first being the
decomposition right after the first convolution — rather than one per layer
boundary of the propagated model. -/
theorem cd_track_vgg_snapshots (blob im : List ℚ) (model : NNModel) :
    (cd_track_vgg blob im model).2.length = 13
      ∧ (cd_track_vgg blob im model).2.head?
        = some (propagate_conv_linear (List.zipWith (· * ·) blob im)
            (List.zipWith (· * ·) (blob.map (1 - ·)) im)
            ((model.mods.drop 2).getD 0 default)) :=
  ⟨rfl, rfl⟩

/-! ### Concrete instances for the closed witnesses -/

/-- A concrete one-dimensional text model. -/
def M1 : TextModel 1 1 1 where
  Wii := !![1]
  Wif := !![1]
  Wig := !![1]
  Wio := !![1]
  Whi := !![1]
  Whf := !![1]
  Whg := !![1]
  Who := !![1]
  bihI := ![1]
  bihF := ![0]
  bihG := ![0]
  bihO := ![0]
  bhhI := ![0]
  bhhF := ![0]
  bhhG := ![0]
  bhhO := ![0]
  Wout := !![2]
  bout := ![3]

/-- The identity activation (a computable stand-in fixing 0, like tanh). -/
def idQ : ℚ → ℚ := fun x => x

/-- A concrete one-dimensional embedding. -/
def embed1 : ℤ → Fin 1 → ℚ := fun z => ![(z : ℚ)]

/-- A concrete batch: token 1 in column 0, token 5 elsewhere. -/
def batchA : ℕ → ℕ → ℤ := fun _ col => if col = 0 then 1 else 5

/-- A concrete batch agreeing with `batchA` on column 0 only. -/
def batchB : ℕ → ℕ → ℤ := fun _ col => if col = 0 then 1 else 7

/-- C7 counterexample: with `start = 1 > stop = 0` on a length-2 sequence,
`cd_text` does not fail: it returns an ordinary score result — the zero
relevant score vector — and its two outputs still sum to the model's
pre-bias logit. -/
theorem cd_text_invalid_range_counterexample :
    cdTextScores M1 idQ idQ 1 0 (fun _ => ![1]) 2 = ![0]
      ∧ cdTextScores M1 idQ idQ 1 0 (fun _ => ![1]) 2
          + cdTextIrrelScores M1 idQ idQ 1 0 (fun _ => ![1]) 2
        = fullLogit M1 idQ idQ (fun _ => ![1]) 2 - M1.bout := by
  constructor
  · have h := (cdRun_rel_zero M1 idQ idQ 1 0 (fun _ => ![1]) (by decide) rfl (2 - 1)).2
    simp only [cdTextScores, h, Matrix.mulVec_zero]
    funext j
    simp [Matrix.cons_val_fin_one]
  · have h := (cdRun_matches_lstm M1 idQ idQ 1 0 (fun _ => ![1]) (2 - 1)).2
    simp only [cdTextScores, cdTextIrrelScores, fullLogit]
    rw [← Matrix.mulVec_add, h, add_sub_cancel_right]

/-- Witness for the amended C7 theorem at the same concrete call. -/
theorem cd_text_invalid_range_returns_witness :
    (0 : ℕ) < 1 ∧ idQ 0 = 0
      ∧ cdTextScores M1 idQ idQ 1 0 (fun _ => ![1]) 2 = 0 :=
  ⟨by decide, rfl,
   cd_text_invalid_range_returns M1 idQ idQ 1 0 (fun _ => ![1]) 2 (by decide) rfl⟩

/-- Witness for C9 at concrete batches that differ away from column 0. -/
theorem cd_text_depends_only_on_column_zero_witness :
    (0 : ℕ) < 1 ∧ (∀ t, t < 1 → batchA t 0 = batchB t 0)
      ∧ cd_text_scores M1 idQ idQ embed1 batchA 0 0 1
        = cd_text_scores M1 idQ idQ embed1 batchB 0 0 1 :=
  ⟨by decide, fun t ht => rfl,
   (cd_text_depends_only_on_column_zero M1 idQ idQ embed1 batchA batchB 0 0 1
     (by decide) (fun t ht => rfl)).1⟩

end CD
